import Mathlib

/-!
Verification of the Polly API client library.

The repository consists of thin Python client functions around an HTTP API:
`fetch_polls` / `fetch_all_polls` (pagination), `register_user`,
`cast_vote`, `get_poll_results`, `get_vote_token`, and the display helper
`print_poll_results`.

The embedding below models each function's decision logic directly from the
source.  Network effects are abstracted as explicit inputs: a page fetcher
becomes a function from a skip offset to an optional page (`none` models the
fetch raising an exception), and an HTTP response becomes its status code
together with the body fields the code actually inspects.  Printing is
modelled as a boolean flag recording whether the diagnostic branch ran.
-/

namespace Polly

/-- The observable outcome of one finished run of `fetch_all_polls`:
the accumulated list of polls (`all_polls` in the source), the number of
calls made to `fetch_polls`, and whether the `except` branch printed its
error diagnostic before breaking out of the loop. -/
structure FetchAllResult (α : Type) where
  polls : List α
  fetchCalls : Nat
  errorLogged : Bool
deriving DecidableEq, Repr

/-- The `while True` loop of `fetch_all_polls` (src/fetch_polls.py), as a
fuel-indexed recursion.  `F skip` models `fetch_polls(skip=skip,
limit=batchSize)`: `some batch` is a successful page, `none` models the call
raising an exception (caught by the loop's `except`, which logs and breaks).
The loop body, in source order: on exception log and break; if the batch is
empty break; extend the accumulator; if the batch is shorter than
`batchSize` break; otherwise advance `skip` and iterate.  `none` as the
overall value means the loop did not finish within `fuel` iterations (the
Python loop itself has no bound). -/
def fetchAllLoop (F : Nat → Option (List α)) (batchSize : Nat) :
    Nat → Nat → List α → Nat → Option (FetchAllResult α)
  | 0, _, _, _ => none
  | fuel + 1, skip, acc, calls =>
    match F skip with
    | none => some ⟨acc, calls + 1, true⟩
    | some batch =>
      if batch.isEmpty then some ⟨acc, calls + 1, false⟩
      else if batch.length < batchSize then some ⟨acc ++ batch, calls + 1, false⟩
      else fetchAllLoop F batchSize fuel (skip + batchSize) (acc ++ batch) (calls + 1)

/-- The function `fetch_all_polls(base_url, batch_size)` from src/fetch_polls.py: run the
accumulation loop from `skip = 0` with an empty accumulator. -/
def fetch_all_polls (F : Nat → Option (List α)) (batchSize fuel : Nat) :
    Option (FetchAllResult α) :=
  fetchAllLoop F batchSize fuel 0 [] 0

/-- A server holding the finite dataset `ds`, answering each page request
with the slice of `ds` starting at `skip` of at most `limit` items.  This is
the collaborator described by the spec's pagination property. -/
def serverFetch (ds : List α) (limit : Nat) : Nat → Option (List α) :=
  fun skip => some ((ds.drop skip).take limit)

/-- The loop of `fetch_all_polls` terminates on fetcher `F` with batch size
`batchSize`: some finite fuel suffices for the loop to return. -/
def TerminatesOn (F : Nat → Option (List α)) (batchSize : Nat) : Prop :=
  ∃ fuel, (fetch_all_polls F batchSize fuel).isSome

/-- Loop invariant for the finite-dataset server: starting at any `skip`
with enough fuel, the loop appends exactly the remaining suffix of the
dataset and makes `(length - skip) / N + 1` further fetch calls. -/
theorem fetchAllLoop_server (ds : List α) (N : Nat) (hN : 1 ≤ N) :
    ∀ fuel skip acc calls, (ds.length - skip) / N + 1 ≤ fuel →
    fetchAllLoop (serverFetch ds N) N fuel skip acc calls =
      some ⟨acc ++ ds.drop skip, calls + ((ds.length - skip) / N + 1), false⟩ := by
  intro fuel
  induction fuel with
  | zero => intro skip acc calls h; exact (Nat.not_succ_le_zero _ h).elim
  | succ fuel ih =>
    intro skip acc calls hfuel
    rw [fetchAllLoop]
    show (if ((ds.drop skip).take N).isEmpty then _
      else if ((ds.drop skip).take N).length < N then _ else _) = _
    by_cases hend : ds.length ≤ skip
    · have hdrop : ds.drop skip = [] := List.drop_eq_nil_of_le hend
      have hsub : ds.length - skip = 0 := by omega
      simp [hdrop, hsub]
    · push_neg at hend
      have hlen : (ds.drop skip).length = ds.length - skip := List.length_drop ..
      have htake : ((ds.drop skip).take N).length = min N (ds.length - skip) := by
        rw [List.length_take, hlen]
      have hne : ((ds.drop skip).take N).isEmpty = false := by
        cases h' : (ds.drop skip).take N with
        | nil =>
          have hlen0 := congrArg List.length h'
          rw [htake] at hlen0
          simp at hlen0
          omega
        | cons a t => rfl
      rw [hne]
      simp only [Bool.false_eq_true, if_false]
      by_cases hshort : ds.length - skip < N
      · have : ((ds.drop skip).take N).length < N := by omega
        rw [if_pos this]
        have htakeall : (ds.drop skip).take N = ds.drop skip :=
          List.take_of_length_le (by omega)
        have : (ds.length - skip) / N = 0 := Nat.div_eq_of_lt hshort
        simp [htakeall, this]
      · push_neg at hshort
        have hfull : ¬ ((ds.drop skip).take N).length < N := by omega
        rw [if_neg hfull]
        have hdiv : (ds.length - skip) / N = (ds.length - skip - N) / N + 1 :=
          Nat.div_eq_sub_div (by omega) hshort
        have hsub : ds.length - (skip + N) = ds.length - skip - N := by omega
        have hfuel' : (ds.length - (skip + N)) / N + 1 ≤ fuel := by
          rw [hsub]; omega
        rw [ih (skip + N) (acc ++ (ds.drop skip).take N) (calls + 1) hfuel']
        have hsplit : (ds.drop skip).take N ++ ds.drop (skip + N) = ds.drop skip := by
          have : ds.drop (skip + N) = (ds.drop skip).drop N := by
            rw [List.drop_drop]
          rw [this, List.take_append_drop]
        congr 1
        refine congrArg₂ (fun a b => FetchAllResult.mk a b false) ?_ ?_
        · rw [List.append_assoc, hsplit]
        · rw [hsub]; omega

/-- C1: for every page size N ≥ 1 and finite dataset `ds` of M items served
by slices, `fetch_all_polls` finishes (any fuel of at least M / N + 1
iterations suffices) and returns exactly the M items of `ds` in their
original order. -/
theorem fetch_all_polls_returns_whole_dataset (α : Type) (ds : List α)
    (N fuel : Nat) (hN : 1 ≤ N) (hfuel : ds.length / N + 1 ≤ fuel) :
    ∃ r : FetchAllResult α,
      fetch_all_polls (serverFetch ds N) N fuel = some r ∧
      r.polls = ds ∧ r.polls.length = ds.length ∧ r.errorLogged = false := by
  refine ⟨⟨ds, 0 + (ds.length / N + 1), false⟩, ?_, rfl, rfl, rfl⟩
  rw [fetch_all_polls, fetchAllLoop_server ds N hN fuel 0 [] 0 (by simpa using hfuel)]
  simp

/-- Concrete instance of C1: a 13-item dataset fetched with page size 10 is
returned whole (the spec's scenario: a full page of 10, then a short page of
3, total 13). -/
theorem fetch_all_polls_returns_whole_dataset_witness :
    ∃ r : FetchAllResult Nat,
      fetch_all_polls (serverFetch (List.range 13) 10) 10 2 = some r ∧
      r.polls = List.range 13 ∧ r.polls.length = (List.range 13).length ∧
      r.errorLogged = false :=
  fetch_all_polls_returns_whole_dataset Nat (List.range 13) 10 2
    (by decide) (by decide)

/-- Ceiling division fact: when `N` does not divide `M`, the ceiling
`(M + N - 1) / N` is one more than the floor `M / N`. -/
theorem ceil_div_of_not_dvd {M N : Nat} (hN : 1 ≤ N) (hd : ¬ N ∣ M) :
    (M + N - 1) / N = M / N + 1 := by
  have hmod : M % N ≠ 0 := fun hc => hd (Nat.dvd_of_mod_eq_zero hc)
  have h2 : M % N < N := Nat.mod_lt _ (by omega)
  have h1 : N * (M / N) + M % N = M := Nat.div_add_mod M N
  have hM : M + N - 1 = (M % N + N - 1) + N * (M / N) := by omega
  rw [hM, Nat.add_mul_div_left _ _ (by omega : 0 < N)]
  have hone : (M % N + N - 1) / N = 1 := Nat.div_eq_of_lt_le (by omega) (by omega)
  omega

/-- C3 (amended): against the finite-dataset server, `fetch_all_polls`
always makes `M / N + 1` fetch calls; that equals `ceil(M / N)` exactly when
`N` does not divide `M`, and is one extra call (to an empty confirming page)
when `N` divides `M`, including `M = 0`. -/
theorem fetch_all_polls_call_count (α : Type) (ds : List α) (N fuel : Nat)
    (hN : 1 ≤ N) (hfuel : ds.length / N + 1 ≤ fuel) :
    ∃ r : FetchAllResult α,
      fetch_all_polls (serverFetch ds N) N fuel = some r ∧
      r.fetchCalls = ds.length / N + 1 ∧
      (¬ N ∣ ds.length → r.fetchCalls = (ds.length + N - 1) / N) := by
  refine ⟨⟨ds, 0 + (ds.length / N + 1), false⟩, ?_, by simp, ?_⟩
  · rw [fetch_all_polls, fetchAllLoop_server ds N hN fuel 0 [] 0 (by simpa using hfuel)]
    simp
  · intro hd
    simp [ceil_div_of_not_dvd hN hd]

/-- C3 as stated is false: with a one-item dataset and page size 1 the code
makes a full-page fetch and then an extra empty-page fetch, 2 calls in
total, while `ceil(1 / 1) = 1`. -/
theorem fetch_all_polls_call_count_counterexample :
    (fetch_all_polls (serverFetch ([0] : List Nat) 1) 1 2).map
        FetchAllResult.fetchCalls = some 2 ∧
      (1 + 1 - 1) / 1 = 1 := by
  exact ⟨rfl, rfl⟩

/-- Concrete instance of the amended C3: 12 items with page size 5 take
`12 / 5 + 1 = 3` calls, which equals `ceil(12 / 5)` since 5 does not
divide 12. -/
theorem fetch_all_polls_call_count_witness :
    ∃ r : FetchAllResult Nat,
      fetch_all_polls (serverFetch (List.range 12) 5) 5 3 = some r ∧
      r.fetchCalls = (List.range 12).length / 5 + 1 ∧
      (¬ 5 ∣ (List.range 12).length →
        r.fetchCalls = ((List.range 12).length + 5 - 1) / 5) :=
  fetch_all_polls_call_count Nat (List.range 12) 5 3 (by decide) (by decide)

/-- A network collaborator that answers every page request with the same
full one-item page (batch size 1), never signalling exhaustion. -/
def alwaysFullFetch : Nat → Option (List Nat) :=
  fun _ => some [0]

/-- Against `alwaysFullFetch` the loop consumes any amount of fuel without
returning: every iteration sees a nonempty page of exactly the requested
size and continues. -/
theorem fetchAllLoop_alwaysFull (fuel skip : Nat) (acc : List Nat) (calls : Nat) :
    fetchAllLoop alwaysFullFetch 1 fuel skip acc calls = none := by
  induction fuel generalizing skip acc calls with
  | zero => rfl
  | succ fuel ih =>
    rw [fetchAllLoop]
    show (if ([0] : List Nat).isEmpty then _
      else if ([0] : List Nat).length < 1 then _ else _) = _
    simp only [List.isEmpty_cons, List.length_cons, List.length_nil,
      Nat.lt_irrefl, if_false, Bool.false_eq_true]
    exact ih ..

/-- C2 as stated is false: the loop of `fetch_all_polls` does not terminate
on the collaborator that always returns full pages — no finite number of
iterations completes the run. -/
theorem fetch_all_polls_nontermination :
    ¬ TerminatesOn alwaysFullFetch 1 := by
  rintro ⟨fuel, h⟩
  rw [fetch_all_polls, fetchAllLoop_alwaysFull] at h
  exact Bool.false_ne_true h

/-- The fetch at offset `skip` makes the loop continue: it succeeds with a
nonempty page of at least the requested batch size. -/
def FullPageAt (F : Nat → Option (List α)) (batchSize skip : Nat) : Prop :=
  ∃ b, F skip = some b ∧ b.isEmpty = false ∧ batchSize ≤ b.length

/-- If the page at offset `j * N` is not a continuing full page, the loop
started at `skip` finishes within `j + 1` iterations. -/
theorem fetchAllLoop_terminates_of_stop (F : Nat → Option (List α)) (N : Nat) :
    ∀ (j skip : Nat) (acc : List α) (calls : Nat),
      ¬ FullPageAt F N (skip + j * N) →
      (fetchAllLoop F N (j + 1) skip acc calls).isSome := by
  intro j
  induction j with
  | zero =>
    intro skip acc calls hstop
    rw [fetchAllLoop]
    match hF : F skip with
    | none => simp
    | some b =>
      by_cases hb : b.isEmpty
      · simp [hb]
      · by_cases hlen : b.length < N
        · simp [hb, hlen]
        · exact absurd ⟨b, by simpa using hF, by simpa using hb, by omega⟩ hstop
  | succ j ih =>
    intro skip acc calls hstop
    rw [fetchAllLoop]
    match hF : F skip with
    | none => simp
    | some b =>
      by_cases hb : b.isEmpty
      · simp [hb]
      · by_cases hlen : b.length < N
        · simp [hb, hlen]
        · simp only [hb, hlen, if_false]
          apply ih (skip + N) (acc ++ b) (calls + 1)
          have harith : skip + N + j * N = skip + (j + 1) * N := by ring
          rw [harith]
          exact hstop

/-- C2 (amended): `fetch_all_polls` terminates on every collaborator that at
some visited offset (a multiple of the batch size) fails, returns an empty
page, or returns a short page; it is not total on arbitrary collaborators
(see the counterexample of the always-full collaborator). -/
theorem fetch_all_polls_terminates_of_eventually_stops
    (α : Type) (F : Nat → Option (List α)) (N : Nat)
    (h : ∃ j, ¬ FullPageAt F N (j * N)) : TerminatesOn F N := by
  obtain ⟨j, hj⟩ := h
  exact ⟨j + 1, fetchAllLoop_terminates_of_stop F N j 0 [] 0 (by simpa using hj)⟩

/-- Concrete instance of the amended C2: the loop terminates against the
server holding an empty dataset (its first page is empty). -/
theorem fetch_all_polls_terminates_witness :
    TerminatesOn (serverFetch ([] : List Nat) 1) 1 :=
  fetch_all_polls_terminates_of_eventually_stops Nat (serverFetch [] 1) 1
    ⟨0, by rintro ⟨b, hb, hbe, hblen⟩; simp [serverFetch] at hb; simp [hb] at hbe⟩

/-- C9: if the very first fetched page is short (fewer items than the
requested batch size, including empty), `fetch_all_polls` returns exactly
that page after a single fetch call, with no diagnostic. -/
theorem fetch_all_polls_first_page_short (α : Type) (F : Nat → Option (List α))
    (N : Nat) (b : List α) (fuel : Nat)
    (hF : F 0 = some b) (hshort : b.length < N) (hfuel : 1 ≤ fuel) :
    fetch_all_polls F N fuel = some ⟨b, 1, false⟩ := by
  obtain ⟨fuel, rfl⟩ : ∃ k, fuel = k + 1 := ⟨fuel - 1, by omega⟩
  rw [fetch_all_polls, fetchAllLoop, hF]
  cases b with
  | nil => simp
  | cons a t =>
    show (if (a :: t).isEmpty = true then _
      else if (a :: t).length < N then _ else _) = _
    rw [if_neg (by simp : ¬ (a :: t).isEmpty = true), if_pos hshort]
    simp

/-- Concrete instance of C9: a first page of 3 items against batch size 10
is returned as the whole result after one call. -/
theorem fetch_all_polls_first_page_short_witness :
    fetch_all_polls (serverFetch [7, 8, 9] 10) 10 1 =
      some ⟨[7, 8, 9], 1, false⟩ :=
  fetch_all_polls_first_page_short Nat (serverFetch [7, 8, 9] 10) 10 [7, 8, 9] 1
    rfl (by decide) (by decide)

/-- If the fetches at offsets `skip, skip + N, ...` deliver the full pages
`ps` and then fail, the loop accumulates exactly the pages in order, logs
the error, and returns normally after `ps.length + 1` calls. -/
theorem fetchAllLoop_full_pages_then_fail (N : Nat) (hN : 1 ≤ N) :
    ∀ (ps : List (List α)) (F : Nat → Option (List α)) (skip : Nat)
      (acc : List α) (calls : Nat),
      (∀ i (h : i < ps.length), F (skip + i * N) = some (ps.get ⟨i, h⟩)) →
      (∀ p ∈ ps, p.length = N) →
      F (skip + ps.length * N) = none →
      fetchAllLoop F N (ps.length + 1) skip acc calls =
        some ⟨acc ++ ps.flatten, calls + ps.length + 1, true⟩ := by
  intro ps
  induction ps with
  | nil =>
    intro F skip acc calls hpages hfull hfail
    simp only [List.length_nil, Nat.zero_mul, Nat.add_zero] at hfail
    rw [fetchAllLoop, hfail]
    simp
  | cons p ps ih =>
    intro F skip acc calls hpages hfull hfail
    have hp : F skip = some p := by
      have := hpages 0 (by simp)
      simpa using this
    have hplen : p.length = N := hfull p (by simp)
    rw [fetchAllLoop, hp]
    have hne : p.isEmpty = false := by
      cases p with
      | nil => simp at hplen; omega
      | cons a t => rfl
    have hnshort : ¬ p.length < N := by omega
    simp only [hne, Bool.false_eq_true, if_false, hnshort]
    have hpages' : ∀ i (h : i < ps.length),
        F (skip + N + i * N) = some (ps.get ⟨i, h⟩) := by
      intro i h
      have harith : skip + N + i * N = skip + (i + 1) * N := by ring
      rw [harith]
      have := hpages (i + 1) (by simpa using Nat.succ_lt_succ h)
      simpa using this
    have hfail' : F (skip + N + ps.length * N) = none := by
      have harith : skip + N + ps.length * N = skip + (ps.length + 1) * N := by ring
      rw [harith]
      simpa using hfail
    simp only [List.length_cons]
    rw [ih F (skip + N) (acc ++ p) (calls + 1) hpages'
      (fun q hq => hfull q (by simp [hq])) hfail']
    simp only [List.flatten_cons]
    refine congrArg some (congrArg₂ (fun a b => FetchAllResult.mk a b true) ?_ ?_)
    · rw [List.append_assoc]
    · omega

/-- C5: if the fetch for batch `k = ps.length + 1` fails after the batches
`ps` all succeeded as full pages, `fetch_all_polls` propagates no exception:
it returns normally with exactly the items accumulated from the successful
batches, having logged the error diagnostic. -/
theorem fetch_all_polls_partial_on_failure (α : Type)
    (F : Nat → Option (List α)) (N : Nat) (ps : List (List α)) (hN : 1 ≤ N)
    (hpages : ∀ i (h : i < ps.length), F (i * N) = some (ps.get ⟨i, h⟩))
    (hfull : ∀ p ∈ ps, p.length = N)
    (hfail : F (ps.length * N) = none) :
    fetch_all_polls F N (ps.length + 1) =
      some ⟨ps.flatten, ps.length + 1, true⟩ := by
  rw [fetch_all_polls,
    fetchAllLoop_full_pages_then_fail N hN ps F 0 [] 0
      (by simpa using hpages) hfull (by simpa using hfail)]
  simp

/-- Concrete instance of C5: one full page of two items, then a failing
fetch; the result is that page, two calls, diagnostic logged. -/
theorem fetch_all_polls_partial_on_failure_witness :
    fetch_all_polls (fun skip => if skip = 0 then some [1, 2] else none)
        2 2 = some ⟨[1, 2], 2, true⟩ := by
  have h := fetch_all_polls_partial_on_failure Nat
    (fun skip => if skip = 0 then some [1, 2] else none) 2 [[1, 2]]
    (by decide)
    (by
      intro i h
      have hi : i = 0 := by simpa using h
      subst hi
      rfl)
    (by
      intro p hp
      have hp' : p = [1, 2] := by simpa using hp
      simp [hp'])
    (by decide)
  simpa using h

/-- One entry of the `results` array of a PollResults payload, as read by
`print_poll_results` (src/vote_and_results.py): option id, display text and
vote count.  The code reads each field with a defaulting lookup; the model
carries the fields directly. -/
structure ResultOption where
  option_id : Nat
  text : String
  vote_count : Nat
deriving DecidableEq, Repr

/-- The comparison realised by `sorted(results_data, key=lambda x:
x.get('vote_count', 0), reverse=True)`: `a` may precede `b` exactly when
`a`'s vote count is at least `b`'s. -/
def voteDescLE (a b : ResultOption) : Bool :=
  decide (b.vote_count ≤ a.vote_count)

theorem voteDescLE_trans (a b c : ResultOption) :
    voteDescLE a b → voteDescLE b c → voteDescLE a c := by
  simp only [voteDescLE, decide_eq_true_eq]
  omega

theorem voteDescLE_total (a b : ResultOption) :
    voteDescLE a b || voteDescLE b a := by
  simp only [voteDescLE, Bool.or_eq_true, decide_eq_true_eq]
  omega

/-- The `sorted_results` list of `print_poll_results`: Python's `sorted` is a stable
sort, so it is embedded as the stable merge sort under `voteDescLE`. -/
def sorted_results (rs : List ResultOption) : List ResultOption :=
  rs.mergeSort voteDescLE

/-- The `total_votes` value of `print_poll_results`: the sum of all option vote
counts of the (unsorted) results list. -/
def total_votes (rs : List ResultOption) : Nat :=
  (rs.map ResultOption.vote_count).sum

/-- The per-option percentage expression of `print_poll_results`:
`(vote_count / total_votes * 100) if total_votes > 0 else 0`, in exact
rational arithmetic. -/
def percentage (totalVotes voteCount : Nat) : ℚ :=
  if 0 < totalVotes then (voteCount : ℚ) / (totalVotes : ℚ) * 100 else 0

/-- The percentages displayed by `print_poll_results`, in display order
(one per option of the sorted results). -/
def displayed_percentages (rs : List ResultOption) : List ℚ :=
  (sorted_results rs).map (fun o => percentage (total_votes rs) o.vote_count)

/-- The vote counts of the sorted results sum to the total taken over the
input order: sorting permutes the options. -/
theorem sum_sorted_vote_counts (rs : List ResultOption) :
    ((sorted_results rs).map (fun o => (o.vote_count : ℚ))).sum =
      (total_votes rs : ℚ) := by
  have hperm :=
    ((rs.mergeSort_perm voteDescLE).map (fun o => (o.vote_count : ℚ))).sum_eq
  rw [sorted_results, hperm, total_votes, Nat.cast_list_sum, List.map_map]
  rfl

/-- C6: with the total defined as the sum of all vote counts, every
displayed percentage is 0 when the total is 0 (the division is never taken),
and when the total is positive each percentage is exactly
`vote_count / total * 100`, so the displayed percentages sum to exactly 100
in rational arithmetic. -/
theorem print_poll_results_percentages (rs : List ResultOption) :
    (total_votes rs = 0 → ∀ q ∈ displayed_percentages rs, q = 0) ∧
    (0 < total_votes rs →
      displayed_percentages rs =
        (sorted_results rs).map
          (fun o => (o.vote_count : ℚ) / (total_votes rs : ℚ) * 100) ∧
      (displayed_percentages rs).sum = 100) := by
  constructor
  · intro h0 q hq
    simp only [displayed_percentages, percentage, h0, Nat.lt_irrefl, if_false,
      List.mem_map] at hq
    obtain ⟨o, _, ho⟩ := hq
    exact ho.symm
  · intro hT
    have hTQ : (total_votes rs : ℚ) ≠ 0 := by
      exact_mod_cast Nat.pos_iff_ne_zero.mp hT
    have heq : displayed_percentages rs =
        (sorted_results rs).map
          (fun o => (o.vote_count : ℚ) / (total_votes rs : ℚ) * 100) := by
      simp [displayed_percentages, percentage, hT]
    refine ⟨heq, ?_⟩
    rw [heq,
      List.map_congr_left (fun o _ => by
        ring :
        ∀ o ∈ sorted_results rs,
          (o.vote_count : ℚ) / (total_votes rs : ℚ) * 100 =
            (o.vote_count : ℚ) * (100 / (total_votes rs : ℚ)))]
    rw [List.sum_map_mul_right, sum_sorted_vote_counts, mul_comm,
      div_mul_cancel₀ _ hTQ]

/-- Concrete instance of C6: two options with 3 and 1 votes display
percentages summing to exactly 100. -/
theorem print_poll_results_percentages_witness :
    (displayed_percentages
        [⟨1, "yes", 3⟩, ⟨2, "no", 1⟩]).sum = 100 :=
  ((print_poll_results_percentages [⟨1, "yes", 3⟩, ⟨2, "no", 1⟩]).2
    (by decide)).2

/-- C7: the ranking printed by `print_poll_results` is the input sorted by
descending vote count, the sort is a permutation of the input, and it is
stable: the options holding any fixed vote count appear in the ranking in
exactly their original input order. -/
theorem print_poll_results_ranking (rs : List ResultOption) :
    (sorted_results rs).Pairwise
        (fun a b => b.vote_count ≤ a.vote_count) ∧
      List.Perm (sorted_results rs) rs ∧
      ∀ c : Nat,
        (sorted_results rs).filter (fun o => o.vote_count == c) =
          rs.filter (fun o => o.vote_count == c) := by
  refine ⟨?_, rs.mergeSort_perm voteDescLE, ?_⟩
  · exact (List.sorted_mergeSort voteDescLE_trans voteDescLE_total rs).imp
      (fun h => by simpa [voteDescLE] using h)
  · intro c
    have hmem : ∀ a ∈ rs.filter (fun o => o.vote_count == c),
        a.vote_count = c := by
      intro a ha
      have := (List.mem_filter.mp ha).2
      simpa using this
    have hpair : (rs.filter (fun o => o.vote_count == c)).Pairwise
        (fun a b => voteDescLE a b = true) :=
      List.pairwise_of_forall_mem_list (fun a ha b hb => by
        simp [voteDescLE, hmem a ha, hmem b hb])
    have hsub : List.Sublist (rs.filter (fun o => o.vote_count == c))
        (sorted_results rs) :=
      List.sublist_mergeSort voteDescLE_trans voteDescLE_total hpair
        (List.filter_sublist rs)
    have hidem : (rs.filter (fun o => o.vote_count == c)).filter
        (fun o => o.vote_count == c) = rs.filter (fun o => o.vote_count == c) :=
      List.filter_eq_self.mpr (fun a ha => (List.mem_filter.mp ha).2)
    have hsub2 : List.Sublist (rs.filter (fun o => o.vote_count == c))
        ((sorted_results rs).filter (fun o => o.vote_count == c)) := by
      have := hsub.filter (fun o => o.vote_count == c)
      rwa [hidem] at this
    have hperm : List.Perm
        ((sorted_results rs).filter (fun o => o.vote_count == c))
        (rs.filter (fun o => o.vote_count == c)) :=
      (rs.mergeSort_perm voteDescLE).filter _
    exact (hsub2.eq_of_length hperm.length_eq.symm).symm

/-- How a raising wrapper finishes, as seen by its Python caller:
`ok` — the parsed body is returned; `domainError` — a `ValueError` with the
given message propagates; `transportError` — a
`requests.exceptions.RequestException` propagates (the wrappers re-raise it
with a wrapped message, which the model does not inspect); `noneReturn` —
no branch of the status dispatch fires and the function falls off its end,
implicitly returning Python `None`. -/
inductive Outcome where
  | ok
  | domainError (msg : String)
  | transportError
  | noneReturn
deriving DecidableEq, Repr

/-- The requests-library helper `response.raise_for_status()` raises an
`HTTPError` exactly for client-error and server-error status codes,
400 ≤ status < 600. -/
def raisesForStatus (status : Nat) : Bool :=
  decide (400 ≤ status ∧ status < 600)

/-- Status dispatch of `register_user` (src/register_user.py).
`detailField` models the error body: `none` when the body fails to parse as
JSON (the code swallows the decode error and keeps its default message),
`some d` when it parses with `d` the optional `detail` field.  On 400 the
code raises `ValueError` with the server detail when present, else the
default; on other statuses it calls `raise_for_status`, whose `HTTPError`
is caught and re-raised as a `RequestException`.  A network-level failure
before any response is a `transportError` as well, outside this
dispatch. -/
def register_user (status : Nat) (detailField : Option (Option String)) :
    Outcome :=
  if status = 200 then .ok
  else if status = 400 then
    .domainError ("Registration failed: " ++
      ((detailField.bind id).getD "Username already registered"))
  else if raisesForStatus status then .transportError
  else .noneReturn

/-- Status dispatch of `fetch_polls` (src/fetch_polls.py).  On 200 the code
checks `isinstance(polls_data, list)` and raises `ValueError` otherwise;
other statuses go to `raise_for_status`. -/
def fetch_polls (status : Nat) (bodyIsList : Bool) : Outcome :=
  if status = 200 then
    if bodyIsList then .ok
    else .domainError "Expected a list of polls, but received a different data type"
  else if raisesForStatus status then .transportError
  else .noneReturn

/-- Status dispatch of `cast_vote` (src/vote_and_results.py): 200 succeeds,
401 and 404 raise distinguished `ValueError`s, the rest go to
`raise_for_status`. -/
def cast_vote (status : Nat) : Outcome :=
  if status = 200 then .ok
  else if status = 401 then .domainError "Unauthorized: Invalid or missing JWT token"
  else if status = 404 then .domainError "Poll or option not found"
  else if raisesForStatus status then .transportError
  else .noneReturn

/-- Status dispatch of `get_poll_results` (src/vote_and_results.py): 200
succeeds, 404 raises a distinguished `ValueError`, the rest go to
`raise_for_status`. -/
def get_poll_results (status : Nat) : Outcome :=
  if status = 200 then .ok
  else if status = 404 then .domainError "Poll not found"
  else if raisesForStatus status then .transportError
  else .noneReturn

/-- C4 fails on the code: on a 201 or 302 response — neither 200 nor a
distinguished failure code — `raise_for_status` raises nothing, no branch
of the dispatch fires, and each raising wrapper implicitly returns Python
`None` instead of raising a generic transport-level error.  (For statuses
in 400..599 other than the distinguished ones the wrappers do raise the
transport error, as the second half records.) -/
theorem wrappers_return_none_on_unhandled_success_codes :
    register_user 201 none = .noneReturn ∧
    register_user 302 none = .noneReturn ∧
    fetch_polls 201 true = .noneReturn ∧
    fetch_polls 302 true = .noneReturn ∧
    cast_vote 201 = .noneReturn ∧
    cast_vote 302 = .noneReturn ∧
    get_poll_results 201 = .noneReturn ∧
    get_poll_results 302 = .noneReturn ∧
    register_user 201 none ≠ .transportError ∧
    register_user 500 none = .transportError ∧
    fetch_polls 503 true = .transportError ∧
    cast_vote 418 = .transportError ∧
    get_poll_results 500 = .transportError := by
  decide

/-- C8: on a 400 response, `register_user` raises exactly
"Registration failed: " followed by the body's `detail` field when present
(in particular, the spec's scenario body yields "Registration failed:
Username already registered"), else the same default text; `cast_vote`
raises its two fixed messages on 401 and 404. -/
theorem wrapper_error_messages :
    register_user 400 (some (some "Username already registered")) =
      .domainError "Registration failed: Username already registered" ∧
    (∀ d : String, register_user 400 (some (some d)) =
      .domainError ("Registration failed: " ++ d)) ∧
    register_user 400 (some none) =
      .domainError "Registration failed: Username already registered" ∧
    register_user 400 none =
      .domainError "Registration failed: Username already registered" ∧
    cast_vote 401 = .domainError "Unauthorized: Invalid or missing JWT token" ∧
    cast_vote 404 = .domainError "Poll or option not found" :=
  ⟨rfl, fun _ => rfl, rfl, rfl, rfl, rfl⟩

/-- The function `get_vote_token` (src/vote_and_results.py), over the outcome of the
login POST.  `Except.error ()` models any exception raised inside the
`try` (network failure, and also a 200 body that fails to parse as JSON,
since the handler catches every `Exception`); `Except.ok (status, body)` is
a received response, with `body = some tok` a parsed JSON body whose
optional `access_token` field is `tok`, and `body = none` an unparsable
body.  The returned pair is the Python return value (`None` or the token)
together with whether a diagnostic was printed. -/
def get_vote_token (result : Except Unit (Nat × Option (Option String))) :
    Option String × Bool :=
  match result with
  | .error _ => (none, true)
  | .ok (status, body) =>
    if status = 200 then
      match body with
      | none => (none, true)
      | some tok => (tok, false)
    else (none, true)

/-- C10: `get_vote_token` is total — every outcome yields a token or
`None`, never a propagated exception.  On 200 it returns the body's
`access_token` field (`None` when absent, without a diagnostic); on any
non-200 status, and on any exception during the request or body parsing,
it returns `None` after printing a diagnostic. -/
theorem get_vote_token_never_raises :
    (∀ tok : Option String,
      get_vote_token (.ok (200, some tok)) = (tok, false)) ∧
    (∀ (status : Nat) (body : Option (Option String)), status ≠ 200 →
      get_vote_token (.ok (status, body)) = (none, true)) ∧
    get_vote_token (.ok (200, none)) = (none, true) ∧
    get_vote_token (.error ()) = (none, true) := by
  refine ⟨fun tok => rfl, fun status body h => ?_, rfl, rfl⟩
  simp [get_vote_token, h]

/-- Concrete instance of C10: a 401 login response yields `None` plus a
printed diagnostic. -/
theorem get_vote_token_never_raises_witness :
    get_vote_token (.ok (401, some (some "tok"))) = (none, true) :=
  get_vote_token_never_raises.2.1 401 (some (some "tok")) (by decide)

end Polly
